import Mathlib

/-!
Shallow embedding of the django-historicalrecords versioning engine
(`src/history/models.py` and `src/history/manager.py`).

Field values are modelled by a small closed `Value` type, model schemas by
lists of `Field` descriptors, the append-only history log by a list of
`HistoryEntry` records paired with a sequence-id counter, and the database
effects (row existence for `ForeignKey` dereferencing, primary-row storage)
by explicit state passing.  Every definition follows the corresponding
Python function; doc comments name the source symbol.
-/

namespace HistoricalRecords

/-- A field value (scalars and nullable references are all we need). -/
inductive Value where
  | none
  | int (n : Int)
  | str (s : String)
deriving DecidableEq, Repr

/-- `PRESERVE = 1` in `models.py`. -/
def PRESERVE : Nat := 1

/-- `CONVERT = 2` in `models.py`. -/
def CONVERT : Nat := 2

/-- The change-kind tag: `CREATED = '+'`, `MODIFIED = '~'`, `DELETED = '-'`. -/
inductive HistoryType where
  | created
  | modified
  | deleted
deriving DecidableEq, Repr

/-- The semantic class of a Django model field, as far as `copy_fields`
inspects it: `AutoField`, `IntegerField`, `CharField`, `BooleanField`,
`DateField`, `TimeField`, `DateTimeField`, `ForeignKey target`. -/
inductive FieldClass where
  | auto
  | integer
  | char
  | boolean
  | date
  | time
  | datetime
  | fk (target : String)
deriving DecidableEq, Repr

/-- A field descriptor: the attributes of a Django field that
`HistoricalRecords.copy_fields` reads or writes. -/
structure Field where
  name : String
  fieldClass : FieldClass
  primary_key : Bool := false
  unique : Bool := false
  db_index : Bool := false
  auto_now : Bool := false
  auto_now_add : Bool := false
  null : Bool := false
  blank : Bool := false
  default : Value := Value.none
deriving DecidableEq, Repr

/-- Django `Field.attname`: a `ForeignKey` stores its raw key under
`name + "_id"`; every other field stores under its own name. -/
def Field.attname (f : Field) : String :=
  match f.fieldClass with
  | FieldClass.fk _ => f.name ++ "_id"
  | _ => f.name

/-- `true` exactly for `ForeignKey` fields. -/
def Field.isFK (f : Field) : Bool :=
  match f.fieldClass with
  | FieldClass.fk _ => true
  | _ => false

/-- `true` for `DateField`, `TimeField` and `DateTimeField`
(`isinstance(field, DateField) or isinstance(field, TimeField)`;
`DateTimeField` subclasses `DateField`). -/
def Field.isDateOrTime (f : Field) : Bool :=
  match f.fieldClass with
  | FieldClass.date => true
  | FieldClass.time => true
  | FieldClass.datetime => true
  | _ => false

/-- The constructor arguments of `HistoricalRecords.__init__` that the
claims exercise: `fields` (tracked field names, `None` = all),
`key_conversions` (field name to policy code) and `require_editor`. -/
structure HRConfig where
  fields : Option (List String) := Option.none
  key_conversions : List (String × Nat) := []
  require_editor : Bool := false

/-- The primary model's schema plus, for each `ForeignKey` target model
name, that target's primary-key field (`field.rel.to._meta.pk`). -/
structure ModelCtx where
  fields : List Field
  targetPk : String → Field

/-- `primary_model._meta.pk.name`: the name of the primary-key field. -/
def pkName (ctx : ModelCtx) : String :=
  match ctx.fields.find? (fun f => f.primary_key) with
  | Option.some f => f.name
  | Option.none => ""

/-- The filter in `HistoricalRecords.get_important_fields`:
`f == model._meta.pk or not self._fields or f.name in self._fields`
(Python truthiness: an empty list also passes `not self._fields`). -/
def tracked_ok (cfg : HRConfig) (f : Field) : Bool :=
  f.primary_key ||
    (match cfg.fields with
     | Option.none => true
     | Option.some l => l.isEmpty || l.contains f.name)

/-- `HistoricalRecords.get_important_fields`. -/
def get_important_fields (ctx : ModelCtx) (cfg : HRConfig) : List Field :=
  ctx.fields.filter (tracked_ok cfg)

/-- `HistoricalRecords.get_important_field_names` (attnames). -/
def get_important_field_names (ctx : ModelCtx) (cfg : HRConfig) : List String :=
  (get_important_fields ctx cfg).map Field.attname

/-- `self.key_conversions.get(field.name, CONVERT)`. -/
def getPolicy (cfg : HRConfig) (name : String) : Nat :=
  match cfg.key_conversions.lookup name with
  | Option.some p => p
  | Option.none => CONVERT

/-- The flag rewrites at the bottom of the `copy_fields` loop, in source
order: `AutoField` is demoted to `IntegerField`, date/time auto flags are
cleared, and primary-key/unique fields become plain indexed fields. -/
def normalize_copied_field (f1 : Field) : Field :=
  let f2 := if f1.fieldClass = FieldClass.auto then
      { f1 with fieldClass := FieldClass.integer } else f1
  let f3 := if f2.isDateOrTime then
      { f2 with auto_now := false, auto_now_add := false } else f2
  if f3.primary_key || f3.unique then
    { f3 with primary_key := false, unique := false, db_index := true }
  else f3

/-- The ForeignKey-conversion step at the top of the `copy_fields` loop:
CONVERT replaces the field by a copy of the target's primary-key field
keeping `null`/`blank` and taking the attname as name; PRESERVE keeps
the relation; anything else raises
`ValueError('Invalid key conversion type')`. -/
def convert_fk (ctx : ModelCtx) (cfg : HRConfig) (f0 : Field) : Except String Field :=
  match f0.fieldClass with
  | FieldClass.fk target =>
    let conversion := getPolicy cfg f0.name
    if conversion = CONVERT then
      let pkf := ctx.targetPk target
      Except.ok { pkf with null := f0.null, blank := f0.blank, name := f0.attname }
    else if conversion = PRESERVE then
      Except.ok f0
    else
      Except.error "Invalid key conversion type"
  | _ => Except.ok f0

/-- One iteration of `HistoricalRecords.copy_fields`: the ForeignKey
conversion followed by the flag rewrites. -/
def copy_field (ctx : ModelCtx) (cfg : HRConfig) (f0 : Field) : Except String Field :=
  match convert_fk ctx cfg f0 with
  | Except.error msg => Except.error msg
  | Except.ok f1 => Except.ok (normalize_copied_field f1)

/-- The loop of `HistoricalRecords.copy_fields` over a field list,
stopping at the first invalid key-conversion policy. -/
def copy_fields_list (ctx : ModelCtx) (cfg : HRConfig) : List Field → Except String (List Field)
  | [] => Except.ok []
  | f :: fs =>
    match copy_field ctx cfg f with
    | Except.error msg => Except.error msg
    | Except.ok g =>
      match copy_fields_list ctx cfg fs with
      | Except.error msg => Except.error msg
      | Except.ok gs => Except.ok (g :: gs)

/-- `HistoricalRecords.copy_fields`: derive the shadow field for every
tracked field, failing on the first invalid key-conversion policy. -/
def copy_fields (ctx : ModelCtx) (cfg : HRConfig) : Except String (List Field) :=
  copy_fields_list ctx cfg (get_important_fields ctx cfg)

/-- One row of the generated `HistoryEntry` model: the bookkeeping fields
(`history_id` auto key, `history_date` timestamp, `history_type`,
`history_editor`) plus the copied important-field values keyed by attname. -/
structure HistoryEntry where
  history_id : Nat
  history_date : Nat
  history_type : HistoryType
  history_editor : Option Nat
  fields : List (String × Value)
deriving DecidableEq, Repr

/-- `getattr(entry, attname)`: the stored copy of one field value. -/
def HistoryEntry.get (e : HistoryEntry) (a : String) : Value :=
  match e.fields.lookup a with
  | Option.some v => v
  | Option.none => Value.none

/-- An in-memory primary-model instance: its field values keyed by attname
plus the transient `_history_editor` attribute. -/
structure Inst where
  fields : List (String × Value)
  history_editor : Option Nat := Option.none
deriving DecidableEq, Repr

/-- `getattr(instance, attname)`. -/
def Inst.get (i : Inst) (a : String) : Value :=
  match i.fields.lookup a with
  | Option.some v => v
  | Option.none => Value.none

/-- The history table for one primary model: the stored entries and the
next value of the `history_id` auto-increment sequence. -/
structure HistoryState where
  entries : List HistoryEntry := []
  next_id : Nat := 1
deriving DecidableEq, Repr

/-- `HistoryManager._filter_queryset_by_pk`: the entries belonging to one
primary-record identity (the copied primary-key value matches). -/
def entriesFor (ctx : ModelCtx) (s : HistoryState) (pk : Value) : List HistoryEntry :=
  s.entries.filter (fun e => e.get (pkName ctx) == pk)

/-- A queryset ordered by the `HistoryEntry` default ordering
`['-history_id']` and truncated to its first row: the entry with the
greatest `history_id`, or `none` when the set is empty. -/
def latestEntry : List HistoryEntry → Option HistoryEntry
  | [] => Option.none
  | e :: es =>
    match latestEntry es with
    | Option.none => Option.some e
    | Option.some m => Option.some (if e.history_id < m.history_id then m else e)

/-- `HistoricalObjectDescriptor.__get__` (the `history_object` property):
rebuild a primary-model-shaped instance from one entry.  The important
fields take the entry's stored values; every other field of the primary
model keeps its declared default (Django `Model.__init__` semantics), and
the patched `__init__` leaves `_history_editor` at `None`. -/
def history_object (ctx : ModelCtx) (cfg : HRConfig) (e : HistoryEntry) : Inst :=
  let important := get_important_field_names ctx cfg
  { fields := ctx.fields.map (fun f =>
      (f.attname, if important.contains f.attname then e.get f.attname else f.default)),
    history_editor := Option.none }

/-- `HistoryManager.most_recent`: the reconstruction of the newest entry
for the identity, or `DoesNotExist`. -/
def most_recent (ctx : ModelCtx) (cfg : HRConfig) (s : HistoryState) (pk : Value) :
    Except String Inst :=
  match latestEntry (entriesFor ctx s pk) with
  | Option.none => Except.error "has no historical record"
  | Option.some v => Except.ok (history_object ctx cfg v)

/-- `HistoryManager.as_of`: among the identity's entries with
`history_date <= date`, take the one with the greatest `history_id`
(default ordering); `DoesNotExist` when there is none, and also when the
matched entry is a deletion and `restore` was not requested. -/
def as_of (ctx : ModelCtx) (cfg : HRConfig) (s : HistoryState) (pk : Value)
    (date : Nat) (restore : Bool) : Except String Inst :=
  match latestEntry ((entriesFor ctx s pk).filter (fun e => e.history_date ≤ date)) with
  | Option.none => Except.error "had not yet been created"
  | Option.some v =>
    if v.history_type = HistoryType.deleted && !restore then
      Except.error "had already been deleted"
    else
      Except.ok (history_object ctx cfg v)

/-- The primary-model table: rows keyed by primary-key value. -/
structure DB where
  rows : List (Value × List (String × Value)) := []
deriving DecidableEq, Repr

/-- Whether a primary row with this key exists. -/
def DB.hasRow (db : DB) (pk : Value) : Bool :=
  db.rows.any (fun r => r.1 == pk)

/-- The effect of the underlying `Model.save`: insert or update the row. -/
def DB.upsert (db : DB) (pk : Value) (fs : List (String × Value)) : DB :=
  if db.hasRow pk then
    { rows := db.rows.map (fun r => if r.1 == pk then (pk, fs) else r) }
  else
    { rows := (pk, fs) :: db.rows }

/-- The effect of the underlying `Model.delete`: drop the row. -/
def DB.remove (db : DB) (pk : Value) : DB :=
  { rows := db.rows.filter (fun r => !(r.1 == pk)) }

/-- `HistoryManager.get_or_restore`: the live primary row if it exists,
otherwise the most recent historical reconstruction. -/
def get_or_restore (ctx : ModelCtx) (cfg : HRConfig) (db : DB) (s : HistoryState)
    (pk : Value) : Except String Inst :=
  match db.rows.find? (fun r => r.1 == pk) with
  | Option.some r => Except.ok { fields := r.2, history_editor := Option.none }
  | Option.none => most_recent ctx cfg s pk

/-- Which foreign-key target rows currently exist, for the dereference
check in `create_historical_record`. -/
structure Env where
  live : String → Value → Bool

/-- The dangling-reference guard of the `create_historical_record` loop:
for a PRESERVE ForeignKey, `getattr(instance, field.name)` dereferences
the key (a null key yields `None` without a lookup; a missing target row
raises `DoesNotExist`, converted to `HistoricalIntegrityError`). -/
def preserve_check (cfg : HRConfig) (env : Env) (inst : Inst) (f : Field) :
    Except String Unit :=
  match f.fieldClass with
  | FieldClass.fk target =>
    if getPolicy cfg f.name = PRESERVE then
      if inst.get f.attname = Value.none then Except.ok ()
      else if env.live target (inst.get f.attname) then Except.ok ()
      else Except.error "HistoricalIntegrityError"
    else Except.ok ()
  | _ => Except.ok ()

/-- The field-copying loop of `create_historical_record`, with the
PRESERVE guard applied to each field in order. -/
def collect_attrs (cfg : HRConfig) (env : Env) (inst : Inst) :
    List Field → Except String (List (String × Value))
  | [] => Except.ok []
  | f :: fs =>
    match preserve_check cfg env inst f with
    | Except.error msg => Except.error msg
    | Except.ok _ =>
      match collect_attrs cfg env inst fs with
      | Except.error msg => Except.error msg
      | Except.ok rest => Except.ok ((f.attname, inst.get f.attname) :: rest)

/-- `HistoricalRecords.create_historical_record`: check PRESERVE keys,
copy the important field values, and insert a new entry (`manager.create`
assigns the next `history_id` and stamps `history_date`). -/
def create_historical_record (ctx : ModelCtx) (cfg : HRConfig) (env : Env)
    (inst : Inst) (editor : Option Nat) (t : HistoryType) (now : Nat)
    (s : HistoryState) : Except String HistoryState :=
  match collect_attrs cfg env inst (get_important_fields ctx cfg) with
  | Except.error msg => Except.error msg
  | Except.ok attrs =>
    Except.ok
      { entries := { history_id := s.next_id, history_date := now, history_type := t,
                     history_editor := editor, fields := attrs } :: s.entries,
        next_id := s.next_id + 1 }

/-- `HistoricalRecords.post_save`: fetch the most recent entry; if none
exists save unconditionally, otherwise save only when some important field
of the instance differs from the reconstructed most-recent copy.  The tag
is `created and CREATED or MODIFIED`, i.e. chosen by the signal's
`created` flag. -/
def post_save (ctx : ModelCtx) (cfg : HRConfig) (env : Env) (inst : Inst)
    (created : Bool) (now : Nat) (s : HistoryState) : Except String HistoryState :=
  let save :=
    match most_recent ctx cfg s (inst.get (pkName ctx)) with
    | Except.error _ => true
    | Except.ok mr =>
      (get_important_field_names ctx cfg).any (fun a => inst.get a != mr.get a)
  if save then
    create_historical_record ctx cfg env inst inst.history_editor
      (if created then HistoryType.created else HistoryType.modified) now s
  else
    Except.ok s

/-- `HistoricalRecords.post_delete`: record a DELETED entry, swallowing
`HistoricalIntegrityError` (the dangling-PRESERVE-reference case). -/
def post_delete (ctx : ModelCtx) (cfg : HRConfig) (env : Env) (inst : Inst)
    (now : Nat) (s : HistoryState) : HistoryState :=
  match create_historical_record ctx cfg env inst inst.history_editor
      HistoryType.deleted now s with
  | Except.error _ => s
  | Except.ok s2 => s2

/-- The outcome of a wrapped `save()`/`delete()` call: the (possibly
mutated) instance, the primary table, the history table, and the raised
exception message if one escaped. -/
structure SaveResult where
  inst : Inst
  db : DB
  hist : HistoryState
  error : Option String
deriving Repr

/-- The replacement `save` installed by
`HistoricalRecords.capture_save_method`: stage the `editor` keyword
argument into `_history_editor` (falling back to the previously staged
value), raise `ValueError` before the underlying write when an editor is
required but missing, otherwise run the original save (which triggers
`post_save`).  `editorArg = none` models a call without the keyword. -/
def new_save (ctx : ModelCtx) (cfg : HRConfig) (env : Env) (inst0 : Inst)
    (editorArg : Option (Option Nat)) (now : Nat) (db : DB) (s : HistoryState) :
    SaveResult :=
  let inst := { inst0 with history_editor :=
    match editorArg with
    | Option.some e => e
    | Option.none => inst0.history_editor }
  if cfg.require_editor && inst.history_editor.isNone then
    { inst := inst, db := db, hist := s, error := Option.some "Editor field is required" }
  else
    let pk := inst.get (pkName ctx)
    let created := !db.hasRow pk
    let db2 := db.upsert pk inst.fields
    match post_save ctx cfg env inst created now s with
    | Except.error msg => { inst := inst, db := db2, hist := s, error := Option.some msg }
    | Except.ok s2 => { inst := inst, db := db2, hist := s2, error := Option.none }

/-- The replacement `delete` installed by
`HistoricalRecords.capture_delete_method`: same editor staging and
validation, then the original delete followed by `post_delete`. -/
def new_delete (ctx : ModelCtx) (cfg : HRConfig) (env : Env) (inst0 : Inst)
    (editorArg : Option (Option Nat)) (now : Nat) (db : DB) (s : HistoryState) :
    SaveResult :=
  let inst := { inst0 with history_editor :=
    match editorArg with
    | Option.some e => e
    | Option.none => inst0.history_editor }
  if cfg.require_editor && inst.history_editor.isNone then
    { inst := inst, db := db, hist := s, error := Option.some "Editor field is required" }
  else
    let pk := inst.get (pkName ctx)
    { inst := inst, db := db.remove pk,
      hist := post_delete ctx cfg env inst now s, error := Option.none }

/-- `set_editor` as installed by `create_set_editor_method`: stage an
editor for subsequent writes. -/
def set_editor (inst : Inst) (editor : Option Nat) : Inst :=
  { inst with history_editor := editor }

/-- The per-model registration state that `HistoricalRecords.finalize`
manipulates: which hooks have been installed, whether the model carries a
`set_editor` method, whether it is in `HistoricalRecords.REGISTRY`, and
any recorded `AppCache().app_errors` message. -/
structure MState where
  post_save_connected : Bool := false
  post_delete_connected : Bool := false
  manager_attached : Bool := false
  save_captured : Bool := false
  delete_captured : Bool := false
  init_captured : Bool := false
  has_set_editor : Bool := false
  registered : Bool := false
  app_error : Option String := Option.none
deriving DecidableEq, Repr

/-- `HistoricalRecords.create_set_editor_method`: raises when the model
already has a `set_editor` attribute. -/
def create_set_editor_method (st : MState) : Except String MState :=
  if st.has_set_editor then
    Except.error "historicalrecords cannot add method set_editor"
  else
    Except.ok { st with has_set_editor := true }

/-- `HistoricalRecords.finalize`: connect the signal handlers, attach the
manager, capture save/delete/init, add `set_editor` (fatal when already
present), then either record the duplicate-registration error in
`AppCache().app_errors` or register the model. -/
def finalize (st0 : MState) : Except String MState :=
  let st := { st0 with post_save_connected := true, post_delete_connected := true,
                       manager_attached := true, save_captured := true,
                       delete_captured := true, init_captured := true }
  match create_set_editor_method st with
  | Except.error msg => Except.error msg
  | Except.ok st2 =>
    if st2.registered then
      Except.ok { st2 with
        app_error := Option.some "Models cannot have more than one HistoricalRecords field." }
    else
      Except.ok { st2 with registered := true }

/-- The per-field PRESERVE-reference guard inside the
`create_historical_record` loop, as a boolean predicate: a ForeignKey
field under the PRESERVE policy whose non-null key has no live target row. -/
def field_dangles (cfg : HRConfig) (env : Env) (inst : Inst) (f : Field) : Bool :=
  match f.fieldClass with
  | FieldClass.fk target =>
    if getPolicy cfg f.name = PRESERVE then
      if inst.get f.attname = Value.none then false
      else if env.live target (inst.get f.attname) then false
      else true
    else false
  | _ => false

/-- Whether some field in the list trips the PRESERVE-reference guard. -/
def dangling_preserve (cfg : HRConfig) (env : Env) (inst : Inst) (fs : List Field) : Bool :=
  fs.any (field_dangles cfg env inst)

/-- Whether some tracked field of the instance differs (by equality) from
the given history entry's stored value — the de-duplication condition of
`post_save`, phrased against the entry's stored copies. -/
def differsB (ctx : ModelCtx) (cfg : HRConfig) (inst : Inst) (m : HistoryEntry) : Bool :=
  (get_important_field_names ctx cfg).any (fun a => inst.get a != m.get a)

/-- The entry that `create_historical_record` inserts when the PRESERVE
guard passes: next sequence id, current timestamp, the given tag and
editor, and the instance's important field values keyed by attname. -/
def mkCapturedEntry (ctx : ModelCtx) (cfg : HRConfig) (inst : Inst)
    (editor : Option Nat) (t : HistoryType) (now : Nat) (id : Nat) : HistoryEntry :=
  { history_id := id, history_date := now, history_type := t, history_editor := editor,
    fields := (get_important_fields ctx cfg).map (fun f => (f.attname, inst.get f.attname)) }

/-! ### Concrete example model, used by witnesses and counterexamples -/

/-- Example: the primary-key field `id` (an `AutoField`). -/
def exId : Field := { name := "id", fieldClass := FieldClass.auto, primary_key := true }

/-- Example: a plain `IntegerField` named `integer` with default `0`. -/
def exInteger : Field := { name := "integer", fieldClass := FieldClass.integer,
                           default := Value.int 0 }

/-- Example: a nullable `ForeignKey` named `other` referencing model `O`. -/
def exOther : Field := { name := "other", fieldClass := FieldClass.fk "O", null := true }

/-- Example model with fields `id` and `integer`. -/
def exCtx : ModelCtx := { fields := [exId, exInteger], targetPk := fun _ => exId }

/-- Example model that also carries the `other` ForeignKey. -/
def exCtxFk : ModelCtx := { fields := [exId, exInteger, exOther], targetPk := fun _ => exId }

/-- Example: default configuration (all fields tracked, CONVERT, no
editor requirement). -/
def exCfg : HRConfig := {}

/-- Example: `other` configured with the PRESERVE policy. -/
def exCfgPreserve : HRConfig := { key_conversions := [("other", PRESERVE)] }

/-- Example: tracked fields restricted to `integer` while the untracked
`other` ForeignKey carries the invalid policy code `3`. -/
def exCfgBadUntracked : HRConfig :=
  { fields := Option.some ["integer"], key_conversions := [("other", 3)] }

/-- Example: editor required. -/
def exCfgEditor : HRConfig := { require_editor := true }

/-- Example: the tracked `other` ForeignKey carries the invalid policy
code `3`. -/
def exCfgBadTracked : HRConfig := { key_conversions := [("other", 3)] }

/-- Example: tracked fields restricted to `integer` (so `other` is
untracked). -/
def exCfgOnlyInt : HRConfig := { fields := Option.some ["integer"] }

/-- Example environment where every reference target row exists. -/
def exEnvLive : Env := { live := fun _ _ => true }

/-- Example environment where no reference target row exists. -/
def exEnvDead : Env := { live := fun _ _ => false }

/-- Example instance `id=1, integer=5`. -/
def exInst : Inst := { fields := [("id", Value.int 1), ("integer", Value.int 5)] }

/-- Example instance of the ForeignKey model: `id=1, integer=5, other_id=7`. -/
def exInstFk : Inst :=
  { fields := [("id", Value.int 1), ("integer", Value.int 5), ("other_id", Value.int 7)] }

/-- Example instance of the ForeignKey model with `integer=6`. -/
def exInstFk6 : Inst :=
  { fields := [("id", Value.int 1), ("integer", Value.int 6), ("other_id", Value.int 7)] }

/-- Example instance `id=1, integer=5` with editor `4` staged. -/
def exInstEd : Inst :=
  { fields := [("id", Value.int 1), ("integer", Value.int 5)],
    history_editor := Option.some 4 }

/-- Example primary table already holding row `id=1` (with `integer=3`). -/
def exDbRow1 : DB := { rows := [(Value.int 1, [("id", Value.int 1), ("integer", Value.int 3)])] }

/-- Example history entry for `exInstFk` (id 1, date 5, tag created). -/
def exEntryFk : HistoryEntry :=
  { history_id := 1, history_date := 5, history_type := HistoryType.created,
    history_editor := Option.none,
    fields := [("id", Value.int 1), ("integer", Value.int 5), ("other_id", Value.int 7)] }

/-- Example history state holding just `exEntryFk`. -/
def exHistFk : HistoryState := { entries := [exEntryFk], next_id := 2 }

/-! ### Helper lemmas -/

theorem any_eq_of_mem_eq {α : Type} (l : List α) (p q : α → Bool)
    (h : ∀ a ∈ l, p a = q a) : l.any p = l.any q := by
  induction l with
  | nil => rfl
  | cons a l ih =>
    simp only [List.any_cons]
    rw [h a (List.mem_cons_self a l), ih (fun b hb => h b (List.mem_cons_of_mem _ hb))]

theorem lookup_map_attname (g : Field → Value) :
    ∀ (fs : List Field) (f : Field), f ∈ fs → (fs.map Field.attname).Nodup →
      (fs.map (fun f2 => (f2.attname, g f2))).lookup f.attname = Option.some (g f) := by
  intro fs
  induction fs with
  | nil => intro f hf _; cases hf
  | cons f0 fs ih =>
    intro f hf hnd
    simp only [List.map_cons, List.nodup_cons] at hnd
    rcases List.mem_cons.mp hf with hEq | hMem
    · subst hEq
      simp [List.lookup]
    · have hne : ¬ (f.attname == f0.attname) = true := by
        intro hbeq
        exact hnd.1 (by
          have : f.attname = f0.attname := beq_iff_eq.mp hbeq
          rw [← this]
          exact List.mem_map_of_mem Field.attname hMem)
      simp only [List.map_cons, List.lookup]
      rw [Bool.of_not_eq_true hne]
      exact ih f hMem hnd.2

theorem latestEntry_eq_none_iff (l : List HistoryEntry) :
    latestEntry l = Option.none ↔ l = [] := by
  cases l with
  | nil => simp [latestEntry]
  | cons e es =>
    simp only [latestEntry]
    constructor
    · intro h
      cases hl : latestEntry es <;> rw [hl] at h <;> cases h
    · intro h; cases h

theorem latestEntry_mem : ∀ (l : List HistoryEntry) (m : HistoryEntry),
    latestEntry l = Option.some m → m ∈ l := by
  intro l
  induction l with
  | nil => intro m h; cases h
  | cons e es ih =>
    intro m h
    simp only [latestEntry] at h
    cases hl : latestEntry es with
    | none =>
      rw [hl] at h
      cases h
      exact List.mem_cons_self e es
    | some m2 =>
      rw [hl] at h
      cases h
      by_cases hlt : e.history_id < m2.history_id
      · rw [if_pos hlt]
        exact List.mem_cons_of_mem e (ih m2 hl)
      · rw [if_neg hlt]
        exact List.mem_cons_self e es

theorem latestEntry_ge : ∀ (l : List HistoryEntry) (m : HistoryEntry),
    latestEntry l = Option.some m → ∀ x ∈ l, x.history_id ≤ m.history_id := by
  intro l
  induction l with
  | nil => intro m h; cases h
  | cons e es ih =>
    intro m h x hx
    simp only [latestEntry] at h
    cases hl : latestEntry es with
    | none =>
      rw [hl] at h
      cases h
      have : es = [] := (latestEntry_eq_none_iff es).mp hl
      subst this
      rcases List.mem_cons.mp hx with hEq | hMem
      · subst hEq; exact Nat.le_refl _
      · cases hMem
    | some m2 =>
      rw [hl] at h
      cases h
      rcases List.mem_cons.mp hx with hEq | hMem
      · rw [hEq]
        by_cases hlt : e.history_id < m2.history_id
        · rw [if_pos hlt]; exact Nat.le_of_lt hlt
        · rw [if_neg hlt]
      · have hle := ih m2 hl x hMem
        by_cases hlt : e.history_id < m2.history_id
        · rw [if_pos hlt]; exact hle
        · rw [if_neg hlt]
          exact Nat.le_trans hle (Nat.le_of_not_lt hlt)

theorem latestEntry_eq_of_max (l : List HistoryEntry) (e : HistoryEntry)
    (hmem : e ∈ l) (hmax : ∀ x ∈ l, x = e ∨ x.history_id < e.history_id) :
    latestEntry l = Option.some e := by
  cases hl : latestEntry l with
  | none =>
    rw [(latestEntry_eq_none_iff l).mp hl] at hmem
    cases hmem
  | some m =>
    have hm := latestEntry_mem l m hl
    have hge := latestEntry_ge l m hl e hmem
    rcases hmax m hm with hEq | hlt
    · rw [hEq]
    · exact absurd hge (Nat.not_le_of_lt hlt)

theorem preserve_check_eq (cfg : HRConfig) (env : Env) (inst : Inst) (f : Field) :
    preserve_check cfg env inst f =
      (if field_dangles cfg env inst f then Except.error "HistoricalIntegrityError"
       else Except.ok ()) := by
  cases hfc : f.fieldClass <;>
    simp only [preserve_check, field_dangles, hfc] <;>
    split_ifs <;> simp_all

theorem collect_attrs_ok (cfg : HRConfig) (env : Env) (inst : Inst) (fs : List Field)
    (h : dangling_preserve cfg env inst fs = false) :
    collect_attrs cfg env inst fs =
      Except.ok (fs.map (fun f => (f.attname, inst.get f.attname))) := by
  induction fs with
  | nil => rfl
  | cons f fs ih =>
    simp only [dangling_preserve, List.any_cons, Bool.or_eq_false_iff] at h
    have htail : dangling_preserve cfg env inst fs = false := h.2
    have hpc : preserve_check cfg env inst f = Except.ok () := by
      rw [preserve_check_eq, h.1]; rfl
    simp only [collect_attrs, hpc, ih htail, List.map_cons]

theorem collect_attrs_error (cfg : HRConfig) (env : Env) (inst : Inst) (fs : List Field)
    (h : dangling_preserve cfg env inst fs = true) :
    collect_attrs cfg env inst fs = Except.error "HistoricalIntegrityError" := by
  induction fs with
  | nil => simp [dangling_preserve] at h
  | cons f fs ih =>
    simp only [dangling_preserve, List.any_cons, Bool.or_eq_true] at h
    cases hf : field_dangles cfg env inst f with
    | false =>
      have htail : dangling_preserve cfg env inst fs = true := by
        rcases h with h1 | h2
        · rw [hf] at h1; cases h1
        · exact h2
      have hpc : preserve_check cfg env inst f = Except.ok () := by
        rw [preserve_check_eq, hf]; rfl
      simp only [collect_attrs, hpc, ih htail]
    | true =>
      have hpc : preserve_check cfg env inst f = Except.error "HistoricalIntegrityError" := by
        rw [preserve_check_eq, hf]; rfl
      simp only [collect_attrs, hpc]

theorem create_historical_record_ok (ctx : ModelCtx) (cfg : HRConfig) (env : Env)
    (inst : Inst) (ed : Option Nat) (t : HistoryType) (now : Nat) (s : HistoryState)
    (h : dangling_preserve cfg env inst (get_important_fields ctx cfg) = false) :
    create_historical_record ctx cfg env inst ed t now s =
      Except.ok { entries := mkCapturedEntry ctx cfg inst ed t now s.next_id :: s.entries,
                  next_id := s.next_id + 1 } := by
  simp only [create_historical_record, collect_attrs_ok _ _ _ _ h, mkCapturedEntry]

theorem create_historical_record_error (ctx : ModelCtx) (cfg : HRConfig) (env : Env)
    (inst : Inst) (ed : Option Nat) (t : HistoryType) (now : Nat) (s : HistoryState)
    (h : dangling_preserve cfg env inst (get_important_fields ctx cfg) = true) :
    create_historical_record ctx cfg env inst ed t now s =
      Except.error "HistoricalIntegrityError" := by
  simp only [create_historical_record, collect_attrs_error _ _ _ _ h]

theorem important_fields_sub (ctx : ModelCtx) (cfg : HRConfig) (f : Field)
    (hf : f ∈ get_important_fields ctx cfg) : f ∈ ctx.fields :=
  List.mem_of_mem_filter hf

theorem important_contains_attname (ctx : ModelCtx) (cfg : HRConfig) (f : Field)
    (hf : f ∈ get_important_fields ctx cfg) :
    (get_important_field_names ctx cfg).contains f.attname = true := by
  have : f.attname ∈ get_important_field_names ctx cfg :=
    List.mem_map_of_mem Field.attname hf
  exact List.elem_eq_true_of_mem this

theorem important_not_contains_attname (ctx : ModelCtx) (cfg : HRConfig) (f : Field)
    (hnd : (ctx.fields.map Field.attname).Nodup) (hf : f ∈ ctx.fields)
    (hni : f ∉ get_important_fields ctx cfg) :
    (get_important_field_names ctx cfg).contains f.attname = false := by
  cases hc : (get_important_field_names ctx cfg).contains f.attname with
  | false => rfl
  | true =>
    exfalso
    have hmem : f.attname ∈ get_important_field_names ctx cfg :=
      List.mem_of_elem_eq_true hc
    obtain ⟨f2, hf2, hfa⟩ := List.mem_map.mp hmem
    have hf2f : f2 ∈ ctx.fields := important_fields_sub ctx cfg f2 hf2
    have : f2 = f := List.inj_on_of_nodup_map hnd hf2f hf hfa
    exact hni (this ▸ hf2)

theorem history_object_get (ctx : ModelCtx) (cfg : HRConfig) (e : HistoryEntry)
    (f : Field) (hnd : (ctx.fields.map Field.attname).Nodup) (hf : f ∈ ctx.fields) :
    (history_object ctx cfg e).get f.attname =
      (if (get_important_field_names ctx cfg).contains f.attname then e.get f.attname
       else f.default) := by
  have hlk := lookup_map_attname
    (fun f2 => if (get_important_field_names ctx cfg).contains f2.attname
               then e.get f2.attname else f2.default) ctx.fields f hf hnd
  simp only [history_object, Inst.get, hlk]

theorem history_object_get_tracked (ctx : ModelCtx) (cfg : HRConfig) (e : HistoryEntry)
    (hnd : (ctx.fields.map Field.attname).Nodup) :
    ∀ a ∈ get_important_field_names ctx cfg, (history_object ctx cfg e).get a = e.get a := by
  intro a ha
  obtain ⟨f, hf, hfa⟩ := List.mem_map.mp ha
  subst hfa
  rw [history_object_get ctx cfg e f hnd (important_fields_sub ctx cfg f hf)]
  rw [important_contains_attname ctx cfg f hf]
  rfl

theorem post_save_no_history (ctx : ModelCtx) (cfg : HRConfig) (env : Env)
    (inst : Inst) (created : Bool) (now : Nat) (s : HistoryState)
    (hok : dangling_preserve cfg env inst (get_important_fields ctx cfg) = false)
    (he : entriesFor ctx s (inst.get (pkName ctx)) = []) :
    post_save ctx cfg env inst created now s =
      Except.ok { entries := mkCapturedEntry ctx cfg inst inst.history_editor
                    (if created then HistoryType.created else HistoryType.modified)
                    now s.next_id :: s.entries,
                  next_id := s.next_id + 1 } := by
  simp only [post_save, most_recent, he, latestEntry, if_true]
  exact create_historical_record_ok ctx cfg env inst _ _ now s hok

theorem most_recent_of_max (ctx : ModelCtx) (cfg : HRConfig) (s : HistoryState)
    (pk : Value) (m : HistoryEntry) (hm : m ∈ entriesFor ctx s pk)
    (hmax : ∀ x ∈ entriesFor ctx s pk, x = m ∨ x.history_id < m.history_id) :
    most_recent ctx cfg s pk = Except.ok (history_object ctx cfg m) := by
  simp only [most_recent, latestEntry_eq_of_max (entriesFor ctx s pk) m hm hmax]

theorem post_save_with_history (ctx : ModelCtx) (cfg : HRConfig) (env : Env)
    (inst : Inst) (created : Bool) (now : Nat) (s : HistoryState) (m : HistoryEntry)
    (hnd : (ctx.fields.map Field.attname).Nodup)
    (hm : m ∈ entriesFor ctx s (inst.get (pkName ctx)))
    (hmax : ∀ x ∈ entriesFor ctx s (inst.get (pkName ctx)),
      x = m ∨ x.history_id < m.history_id) :
    post_save ctx cfg env inst created now s =
      (if differsB ctx cfg inst m then
        create_historical_record ctx cfg env inst inst.history_editor
          (if created then HistoryType.created else HistoryType.modified) now s
       else Except.ok s) := by
  simp only [post_save, most_recent_of_max ctx cfg s _ m hm hmax]
  have hany : (get_important_field_names ctx cfg).any
        (fun a => inst.get a != (history_object ctx cfg m).get a) =
      differsB ctx cfg inst m := by
    refine any_eq_of_mem_eq _ _ _ (fun a ha => ?_)
    rw [history_object_get_tracked ctx cfg m hnd a ha]
  rw [hany]

theorem normalize_pk (f1 : Field) (h : f1.primary_key = true) :
    (normalize_copied_field f1).primary_key = false ∧
    (normalize_copied_field f1).unique = false ∧
    (normalize_copied_field f1).db_index = true := by
  simp only [normalize_copied_field]
  split_ifs <;> simp_all

theorem normalize_unique (f1 : Field) (h : f1.unique = true) :
    (normalize_copied_field f1).unique = false ∧
    (normalize_copied_field f1).db_index = true := by
  simp only [normalize_copied_field]
  split_ifs <;> simp_all

theorem normalize_dt (f1 : Field) (h : f1.isDateOrTime = true) :
    (normalize_copied_field f1).auto_now = false ∧
    (normalize_copied_field f1).auto_now_add = false := by
  simp only [normalize_copied_field]
  split_ifs <;> simp_all [Field.isDateOrTime]

theorem normalize_class (f1 : Field) :
    (normalize_copied_field f1).fieldClass =
      (if f1.fieldClass = FieldClass.auto then FieldClass.integer else f1.fieldClass) := by
  simp only [normalize_copied_field]
  split_ifs <;> simp_all

theorem copy_field_error_msg (ctx : ModelCtx) (cfg : HRConfig) (f : Field) (m : String)
    (h : copy_field ctx cfg f = Except.error m) : m = "Invalid key conversion type" := by
  simp only [copy_field, convert_fk] at h
  cases hfc : f.fieldClass <;> rw [hfc] at h <;> try cases h
  split_ifs at h
  cases h
  rfl

theorem copy_field_invalid (ctx : ModelCtx) (cfg : HRConfig) (f : Field)
    (hfk : f.isFK = true)
    (hc : getPolicy cfg f.name ≠ CONVERT) (hp : getPolicy cfg f.name ≠ PRESERVE) :
    copy_field ctx cfg f = Except.error "Invalid key conversion type" := by
  simp only [copy_field, convert_fk]
  cases hfc : f.fieldClass <;> simp_all [Field.isFK]

theorem copy_fields_list_error (ctx : ModelCtx) (cfg : HRConfig) (l : List Field)
    (f : Field) (hf : f ∈ l)
    (he : copy_field ctx cfg f = Except.error "Invalid key conversion type") :
    copy_fields_list ctx cfg l = Except.error "Invalid key conversion type" := by
  induction l with
  | nil => cases hf
  | cons f0 fs ih =>
    cases hc : copy_field ctx cfg f0 with
    | error m =>
      have := copy_field_error_msg ctx cfg f0 m hc
      subst this
      simp only [copy_fields_list, hc]
    | ok g =>
      have hmem : f ∈ fs := by
        rcases List.mem_cons.mp hf with hEq | hMem
        · subst hEq; rw [hc] at he; cases he
        · exact hMem
      simp only [copy_fields_list, hc, ih hmem]

theorem create_head_editor (ctx : ModelCtx) (cfg : HRConfig) (env : Env) (inst : Inst)
    (ed : Option Nat) (t : HistoryType) (now : Nat) (s s2 : HistoryState) (e : HistoryEntry)
    (hc : create_historical_record ctx cfg env inst ed t now s = Except.ok s2)
    (he : s2.entries = e :: s.entries) : e.history_editor = ed := by
  simp only [create_historical_record] at hc
  split at hc
  · cases hc
  · injection hc with h2
    rw [← h2] at he
    simp only at he
    injection he with h3 _
    rw [← h3]

theorem post_save_head_editor (ctx : ModelCtx) (cfg : HRConfig) (env : Env) (inst : Inst)
    (created : Bool) (now : Nat) (s s2 : HistoryState) (e : HistoryEntry)
    (hps : post_save ctx cfg env inst created now s = Except.ok s2)
    (he : s2.entries = e :: s.entries) : e.history_editor = inst.history_editor := by
  simp only [post_save] at hps
  split at hps
  · exact create_head_editor ctx cfg env inst _ _ now s s2 e hps he
  · injection hps with h2
    rw [← h2] at he
    exact absurd he.symm (List.cons_ne_self e s.entries)

theorem post_delete_head_editor (ctx : ModelCtx) (cfg : HRConfig) (env : Env) (inst : Inst)
    (now : Nat) (s : HistoryState) (e : HistoryEntry)
    (he : (post_delete ctx cfg env inst now s).entries = e :: s.entries) :
    e.history_editor = inst.history_editor := by
  simp only [post_delete] at he
  cases hc : create_historical_record ctx cfg env inst inst.history_editor
      HistoryType.deleted now s with
  | error m =>
    rw [hc] at he
    exact absurd he.symm (List.cons_ne_self e s.entries)
  | ok s2 =>
    rw [hc] at he
    exact create_head_editor ctx cfg env inst _ _ now s s2 e hc he

/-! ### Claim theorems -/

/-- C2: `as_of` returns the reconstruction of the newest entry (greatest
`history_id`) with `history_date ≤ t` for the identity; it raises
NotFound when no such entry exists, raises NotFound when the matched
entry is a deletion and `restore` was not requested, and returns the
deleted entry's reconstruction when `restore` is set. -/
theorem C2_as_of_semantics (ctx : ModelCtx) (cfg : HRConfig) (s : HistoryState)
    (pk : Value) (t : Nat) (restore : Bool) :
    ((∀ e ∈ entriesFor ctx s pk, ¬ e.history_date ≤ t) →
       as_of ctx cfg s pk t restore = Except.error "had not yet been created") ∧
    (∀ e, e ∈ entriesFor ctx s pk → e.history_date ≤ t →
       (∀ x ∈ entriesFor ctx s pk, x.history_date ≤ t →
          x = e ∨ x.history_id < e.history_id) →
       ((e.history_type = HistoryType.deleted ∧ restore = false →
           as_of ctx cfg s pk t restore = Except.error "had already been deleted") ∧
        (¬ (e.history_type = HistoryType.deleted ∧ restore = false) →
           as_of ctx cfg s pk t restore = Except.ok (history_object ctx cfg e)))) := by
  constructor
  · intro h
    have hfil : (entriesFor ctx s pk).filter (fun e => e.history_date ≤ t) = [] := by
      rw [List.filter_eq_nil_iff]
      intro a ha
      simpa using h a ha
    simp only [as_of, hfil, latestEntry]
  · intro e he hd hmax
    have hfe : e ∈ (entriesFor ctx s pk).filter (fun x => x.history_date ≤ t) :=
      List.mem_filter.mpr ⟨he, by simpa using hd⟩
    have hlf : latestEntry ((entriesFor ctx s pk).filter (fun x => x.history_date ≤ t))
        = Option.some e := by
      refine latestEntry_eq_of_max _ _ hfe (fun x hx => ?_)
      have hx2 := List.mem_filter.mp hx
      exact hmax x hx2.1 (by simpa using hx2.2)
    constructor
    · rintro ⟨hdel, hres⟩
      have hcond : (decide (e.history_type = HistoryType.deleted) && !restore) = true := by
        rw [hdel, hres]; rfl
      simp only [as_of, hlf, hcond]
      rfl
    · intro hn
      have hcond : (decide (e.history_type = HistoryType.deleted) && !restore) = false := by
        cases ht : e.history_type <;> cases hr : restore <;> simp_all
      simp only [as_of, hlf, hcond]
      rfl

/-- C2 witness: at time 7 the only entry (date 5, tag created) is
matched and its reconstruction returned. -/
theorem C2_witness :
    as_of exCtxFk exCfgPreserve exHistFk (Value.int 1) 7 false =
      Except.ok (history_object exCtxFk exCfgPreserve exEntryFk) :=
  ((C2_as_of_semantics exCtxFk exCfgPreserve exHistFk (Value.int 1) 7 false).2
    exEntryFk (by decide) (by decide) (by decide)).2 (by decide)

/-- C3: a delete capture with a dangling PRESERVE reference writes no
entry and surfaces no error; in every other case the delete capture
writes exactly one `deleted`-tagged entry. -/
theorem C3_delete_dangling_guard (ctx : ModelCtx) (cfg : HRConfig) (env : Env)
    (inst : Inst) (now : Nat) (s : HistoryState) :
    (dangling_preserve cfg env inst (get_important_fields ctx cfg) = true →
       post_delete ctx cfg env inst now s = s) ∧
    (dangling_preserve cfg env inst (get_important_fields ctx cfg) = false →
       post_delete ctx cfg env inst now s =
         { entries := mkCapturedEntry ctx cfg inst inst.history_editor HistoryType.deleted
             now s.next_id :: s.entries,
           next_id := s.next_id + 1 }) := by
  constructor
  · intro h
    simp only [post_delete, create_historical_record_error ctx cfg env inst _ _ now s h]
  · intro h
    simp only [post_delete, create_historical_record_ok ctx cfg env inst _ _ now s h]

/-- C3 witness: with the PRESERVE target row gone the delete capture
leaves the history unchanged; with it present a deleted entry is
appended. -/
theorem C3_witness :
    post_delete exCtxFk exCfgPreserve exEnvDead exInstFk 10 exHistFk = exHistFk ∧
    post_delete exCtxFk exCfgPreserve exEnvLive exInstFk 10 exHistFk =
      { entries := mkCapturedEntry exCtxFk exCfgPreserve exInstFk Option.none
          HistoryType.deleted 10 2 :: exHistFk.entries,
        next_id := 3 } :=
  ⟨(C3_delete_dangling_guard exCtxFk exCfgPreserve exEnvDead exInstFk 10 exHistFk).1
      (by decide),
   (C3_delete_dangling_guard exCtxFk exCfgPreserve exEnvLive exInstFk 10 exHistFk).2
      (by decide)⟩

/-- C5: with the editor requirement enabled, a save or delete whose
resolved editor (argument, else staged value) is missing raises the
validation error and leaves the primary table and the history log
unchanged. -/
theorem C5_editor_required (ctx : ModelCtx) (cfg : HRConfig) (env : Env) (inst : Inst)
    (editorArg : Option (Option Nat)) (now : Nat) (db : DB) (s : HistoryState)
    (hreq : cfg.require_editor = true)
    (hmiss : (match editorArg with
              | Option.some e => e
              | Option.none => inst.history_editor) = Option.none) :
    new_save ctx cfg env inst editorArg now db s =
      { inst := { inst with history_editor := Option.none }, db := db, hist := s,
        error := Option.some "Editor field is required" } ∧
    new_delete ctx cfg env inst editorArg now db s =
      { inst := { inst with history_editor := Option.none }, db := db, hist := s,
        error := Option.some "Editor field is required" } := by
  constructor <;> simp only [new_save, new_delete, hmiss, hreq, Option.isNone,
    Bool.and_true, if_true]

/-- C5 witness: with `require_editor` on and nothing staged or passed,
the save fails before any write and both tables are untouched. -/
theorem C5_witness :
    new_save exCtx exCfgEditor exEnvLive exInst Option.none 10 exDbRow1 exHistFk =
      { inst := { exInst with history_editor := Option.none }, db := exDbRow1,
        hist := exHistFk, error := Option.some "Editor field is required" } :=
  (C5_editor_required exCtx exCfgEditor exEnvLive exInst Option.none 10 exDbRow1 exHistFk
    rfl rfl).1

/-- C6: attaching the versioning capability a second time to a model
whose first registration completed makes the second registration fail
(the `set_editor` guard raises during `finalize`). -/
theorem C6_duplicate_attach_fatal (st st2 : MState)
    (h : finalize st = Except.ok st2) :
    finalize st2 = Except.error "historicalrecords cannot add method set_editor" := by
  have hse : st2.has_set_editor = true := by
    simp only [finalize] at h
    split at h
    next msg heq => cases h
    next stA heq =>
      have hA : stA.has_set_editor = true := by
        simp only [create_set_editor_method] at heq
        split at heq
        · cases heq
        · injection heq with h2; rw [← h2]
      split at h <;> (injection h with h2; rw [← h2]; exact hA)
  simp [finalize, create_set_editor_method, hse]

/-- C6 witness: a fresh registration succeeds and a second one on the
resulting state fails. -/
theorem C6_witness :
    finalize { post_save_connected := true, post_delete_connected := true,
               manager_attached := true, save_captured := true, delete_captured := true,
               init_captured := true, has_set_editor := true, registered := true,
               app_error := Option.none } =
      Except.error "historicalrecords cannot add method set_editor" :=
  C6_duplicate_attach_fatal {} _ rfl

/-- C7 counterexample: a reference field configured with the invalid
policy code `3` but excluded from the tracked field set is never
examined, so schema derivation succeeds instead of failing. -/
theorem C7_counterexample :
    exOther ∈ exCtxFk.fields ∧ exOther.isFK = true ∧
    getPolicy exCfgBadUntracked exOther.name = 3 ∧
    getPolicy exCfgBadUntracked exOther.name ≠ CONVERT ∧
    getPolicy exCfgBadUntracked exOther.name ≠ PRESERVE ∧
    copy_fields exCtxFk exCfgBadUntracked =
      Except.ok [normalize_copied_field exId, normalize_copied_field exInteger] := by
  refine ⟨by decide, by decide, by decide, by decide, by decide, rfl⟩

/-- C7 (amended): for every TRACKED reference field whose configured
conversion policy is neither CONVERT nor PRESERVE, schema derivation
(`copy_fields`) fails with the configuration error. -/
theorem C7_invalid_policy_fatal (ctx : ModelCtx) (cfg : HRConfig) (f : Field)
    (hf : f ∈ get_important_fields ctx cfg) (hfk : f.isFK = true)
    (hc : getPolicy cfg f.name ≠ CONVERT) (hp : getPolicy cfg f.name ≠ PRESERVE) :
    copy_fields ctx cfg = Except.error "Invalid key conversion type" :=
  copy_fields_list_error ctx cfg _ f hf (copy_field_invalid ctx cfg f hfk hc hp)

/-- C7 witness: with the ForeignKey tracked, the invalid policy code `3`
makes derivation fail. -/
theorem C7_witness :
    copy_fields exCtxFk exCfgBadTracked = Except.error "Invalid key conversion type" :=
  C7_invalid_policy_fatal exCtxFk exCfgBadTracked exOther (by decide) (by decide)
    (by decide) (by decide)

/-- C8 counterexample: a save captured while a tracked PRESERVE reference
dangles raises nothing and writes nothing when the tracked values equal
the most recent entry (de-duplication runs before the integrity check). -/
theorem C8_counterexample :
    dangling_preserve exCfgPreserve exEnvDead exInstFk
        (get_important_fields exCtxFk exCfgPreserve) = true ∧
    post_save exCtxFk exCfgPreserve exEnvDead exInstFk false 10 exHistFk =
      Except.ok exHistFk := by
  refine ⟨by decide, by rfl⟩

/-- C8 (amended): when a create/update capture decides an entry is
warranted (no prior entry, or some tracked field differs) while a
tracked PRESERVE reference dangles, the integrity error propagates out
of `post_save` (only the delete path swallows it) and no entry is
written. -/
theorem C8_save_path_integrity (ctx : ModelCtx) (cfg : HRConfig) (env : Env)
    (inst : Inst) (created : Bool) (now : Nat) (s : HistoryState)
    (hnd : (ctx.fields.map Field.attname).Nodup)
    (hd : dangling_preserve cfg env inst (get_important_fields ctx cfg) = true) :
    (entriesFor ctx s (inst.get (pkName ctx)) = [] →
       post_save ctx cfg env inst created now s =
         Except.error "HistoricalIntegrityError") ∧
    (∀ m, m ∈ entriesFor ctx s (inst.get (pkName ctx)) →
       (∀ x ∈ entriesFor ctx s (inst.get (pkName ctx)),
          x = m ∨ x.history_id < m.history_id) →
       differsB ctx cfg inst m = true →
       post_save ctx cfg env inst created now s =
         Except.error "HistoricalIntegrityError") := by
  constructor
  · intro he
    simp only [post_save, most_recent, he, latestEntry]
    exact create_historical_record_error ctx cfg env inst _ _ now s hd
  · intro m hm hmax hdiff
    rw [post_save_with_history ctx cfg env inst created now s m hnd hm hmax, hdiff]
    exact create_historical_record_error ctx cfg env inst _ _ now s hd

/-- C8 witness: with `integer` changed and the PRESERVE reference
dangling, the save capture raises the integrity error. -/
theorem C8_witness :
    post_save exCtxFk exCfgPreserve exEnvDead exInstFk6 false 10 exHistFk =
      Except.error "HistoricalIntegrityError" :=
  (C8_save_path_integrity exCtxFk exCfgPreserve exEnvDead exInstFk6 false 10 exHistFk
    (by decide) (by decide)).2 exEntryFk (by decide) (by decide) (by decide)

/-- C9: the reconstructed primary-shaped object takes each tracked
field's value from the entry's stored copy, and leaves every untracked
field of the primary model at its declared default. -/
theorem C9_reconstruction_fields (ctx : ModelCtx) (cfg : HRConfig) (e : HistoryEntry)
    (f : Field) (hnd : (ctx.fields.map Field.attname).Nodup) (hf : f ∈ ctx.fields) :
    (f ∈ get_important_fields ctx cfg →
       (history_object ctx cfg e).get f.attname = e.get f.attname) ∧
    (f ∉ get_important_fields ctx cfg →
       (history_object ctx cfg e).get f.attname = f.default) := by
  constructor
  · intro hi
    exact history_object_get_tracked ctx cfg e hnd f.attname
      (List.mem_map_of_mem Field.attname hi)
  · intro hni
    rw [history_object_get ctx cfg e f hnd hf,
        important_not_contains_attname ctx cfg f hnd hf hni]
    rfl

/-- C9 witness: with only `integer` tracked (plus the always-tracked
primary key), the reconstruction restores `integer` from the entry and
leaves the untracked `other_id` at its default. -/
theorem C9_witness :
    (history_object exCtxFk exCfgOnlyInt exEntryFk).get exInteger.attname =
      exEntryFk.get exInteger.attname ∧
    (history_object exCtxFk exCfgOnlyInt exEntryFk).get exOther.attname =
      exOther.default :=
  ⟨(C9_reconstruction_fields exCtxFk exCfgOnlyInt exEntryFk exInteger (by decide)
      (by decide)).1 (by decide),
   (C9_reconstruction_fields exCtxFk exCfgOnlyInt exEntryFk exOther (by decide)
      (by decide)).2 (by decide)⟩

/-- C10: a write never clears the staged editor: a save or delete with
no editor argument keeps the staged editor on the instance and stamps it
on any entry it writes; `set_editor` stages exactly the given editor and
a save with an explicit editor argument restages that argument. -/
theorem C10_staged_editor_persists (ctx : ModelCtx) (cfg : HRConfig) (env : Env)
    (inst : Inst) (now : Nat) (db : DB) (s : HistoryState) :
    ((new_save ctx cfg env inst Option.none now db s).inst.history_editor
        = inst.history_editor) ∧
    (∀ e, (new_save ctx cfg env inst Option.none now db s).hist.entries = e :: s.entries →
        e.history_editor = inst.history_editor) ∧
    ((new_delete ctx cfg env inst Option.none now db s).inst.history_editor
        = inst.history_editor) ∧
    (∀ e, (new_delete ctx cfg env inst Option.none now db s).hist.entries = e :: s.entries →
        e.history_editor = inst.history_editor) ∧
    (∀ ed, (set_editor inst ed).history_editor = ed) ∧
    (∀ ed, (new_save ctx cfg env inst (Option.some ed) now db s).inst.history_editor
        = ed) := by
  refine ⟨?_, ?_, ?_, ?_, fun ed => rfl, fun ed => ?_⟩
  · simp only [new_save]
    split
    · rfl
    · split <;> rfl
  · intro e he
    simp only [new_save] at he
    split at he
    · exact absurd he.symm (List.cons_ne_self e s.entries)
    · split at he
      · exact absurd he.symm (List.cons_ne_self e s.entries)
      next s2 hps => exact post_save_head_editor ctx cfg env _ _ now s s2 e hps he
  · simp only [new_delete]
    split
    · rfl
    · rfl
  · intro e he
    simp only [new_delete] at he
    split at he
    · exact absurd he.symm (List.cons_ne_self e s.entries)
    · exact post_delete_head_editor ctx cfg env _ now s e he
  · simp only [new_save]
    split
    · rfl
    · split <;> rfl

/-- C10 witness: a save without an editor argument keeps the staged
editor 4 on the instance. -/
theorem C10_witness :
    (new_save exCtx exCfg exEnvLive exInstEd Option.none 10 exDbRow1
        { entries := [], next_id := 1 }).inst.history_editor = Option.some 4 :=
  (C10_staged_editor_persists exCtx exCfg exEnvLive exInstEd 10 exDbRow1
    { entries := [], next_id := 1 }).1

/-- C1 counterexample: a save of a record that exists in the primary
table (so the storage layer reports an update) but has no history entry
writes an entry tagged `modified`, not `created` as the claim requires of
an empty history. -/
theorem C1_counterexample :
    (new_save exCtx exCfg exEnvLive exInst Option.none 10 exDbRow1
        { entries := [], next_id := 1 }).hist.entries.map (fun e => e.history_type) =
      [HistoryType.modified] ∧
    HistoryType.modified ≠ HistoryType.created :=
  ⟨by decide, by decide⟩

/-- C1 (amended): on a create/update capture, if no entry exists for the
identity a new entry is written unconditionally; if one exists a new
entry is written iff at least one tracked field differs from the most
recent entry's stored values; the tag is `created` when the underlying
write created the row and `modified` otherwise (it follows the created
flag, not history emptiness). -/
theorem C1_capture_decision (ctx : ModelCtx) (cfg : HRConfig) (env : Env) (inst : Inst)
    (created : Bool) (now : Nat) (s : HistoryState)
    (hnd : (ctx.fields.map Field.attname).Nodup)
    (hok : dangling_preserve cfg env inst (get_important_fields ctx cfg) = false) :
    (entriesFor ctx s (inst.get (pkName ctx)) = [] →
       post_save ctx cfg env inst created now s =
         Except.ok { entries := mkCapturedEntry ctx cfg inst inst.history_editor
                       (if created then HistoryType.created else HistoryType.modified)
                       now s.next_id :: s.entries,
                     next_id := s.next_id + 1 }) ∧
    (∀ m, m ∈ entriesFor ctx s (inst.get (pkName ctx)) →
       (∀ x ∈ entriesFor ctx s (inst.get (pkName ctx)),
          x = m ∨ x.history_id < m.history_id) →
       ((differsB ctx cfg inst m = true →
           post_save ctx cfg env inst created now s =
             Except.ok { entries := mkCapturedEntry ctx cfg inst inst.history_editor
                           (if created then HistoryType.created else HistoryType.modified)
                           now s.next_id :: s.entries,
                         next_id := s.next_id + 1 }) ∧
        (differsB ctx cfg inst m = false →
           post_save ctx cfg env inst created now s = Except.ok s))) := by
  constructor
  · intro he
    exact post_save_no_history ctx cfg env inst created now s hok he
  · intro m hm hmax
    constructor
    · intro hdiff
      rw [post_save_with_history ctx cfg env inst created now s m hnd hm hmax, hdiff]
      exact create_historical_record_ok ctx cfg env inst inst.history_editor _ now s hok
    · intro hdiff
      rw [post_save_with_history ctx cfg env inst created now s m hnd hm hmax, hdiff]
      rfl

/-- C1 witness: the first save (empty history, row inserted) writes one
entry tagged `created`. -/
theorem C1_witness :
    post_save exCtx exCfg exEnvLive exInst true 10 { entries := [], next_id := 1 } =
      Except.ok { entries := [mkCapturedEntry exCtx exCfg exInst Option.none
                               HistoryType.created 10 1],
                  next_id := 2 } :=
  (C1_capture_decision exCtx exCfg exEnvLive exInst true 10 { entries := [], next_id := 1 }
    (by decide) (by decide)).1 (by decide)

/-- C4 counterexample: the tracked `other` ForeignKey under the default
CONVERT policy is none of the claim's three exceptions (not the primary
key, not unique, not a date/time field), yet its shadow field does not
keep the reference type: it is replaced by a copy of the target's
primary-key field, demoted to a plain integer class. -/
theorem C4_counterexample :
    exOther.primary_key = false ∧ exOther.unique = false ∧
    exOther.isDateOrTime = false ∧
    getPolicy exCfg exOther.name = CONVERT ∧
    (∃ g, copy_field exCtxFk exCfg exOther = Except.ok g ∧
       g.fieldClass = FieldClass.integer ∧ ¬ g.fieldClass = exOther.fieldClass) :=
  ⟨rfl, rfl, rfl, rfl, ⟨_, rfl, rfl, by decide⟩⟩

/-- C4 (amended): each shadow field keeps its semantic class except that
the primary-key field becomes a plain non-key, non-unique, indexed field
(its `AutoField` class demoted to a plain integer class), date/time
fields lose `auto_now`/`auto_now_add`, unique fields lose uniqueness but
gain a non-unique index, and reference fields follow the configured
conversion policy: under CONVERT the shadow takes the class of the
referenced model's primary-key field (demoted to a plain integer class
when that key is an auto key), under PRESERVE the reference type is
kept. -/
theorem C4_shadow_field_rules (ctx : ModelCtx) (cfg : HRConfig) (f g : Field)
    (hpk : ∀ tgt, (ctx.targetPk tgt).primary_key = true)
    (h : copy_field ctx cfg f = Except.ok g) :
    (f.primary_key = true → g.primary_key = false ∧ g.unique = false ∧ g.db_index = true) ∧
    (f.isDateOrTime = true → g.auto_now = false ∧ g.auto_now_add = false) ∧
    (f.unique = true → g.unique = false ∧ g.db_index = true) ∧
    (f.isFK = false → g.fieldClass =
      (if f.fieldClass = FieldClass.auto then FieldClass.integer else f.fieldClass)) ∧
    (∀ tgt, f.fieldClass = FieldClass.fk tgt →
       (getPolicy cfg f.name = CONVERT →
          g.fieldClass = (if (ctx.targetPk tgt).fieldClass = FieldClass.auto
                          then FieldClass.integer else (ctx.targetPk tgt).fieldClass)) ∧
       (getPolicy cfg f.name = PRESERVE → g.fieldClass = FieldClass.fk tgt)) := by
  simp only [copy_field] at h
  split at h
  next msg heq => cases h
  next f1 heq =>
    injection h with hg
    subst hg
    by_cases hfk : f.isFK = true
    · obtain ⟨target, hfc⟩ : ∃ tgt, f.fieldClass = FieldClass.fk tgt := by
        cases hfc2 : f.fieldClass <;>
          first
          | exact ⟨_, rfl⟩
          | simp [Field.isFK, hfc2] at hfk
      simp only [convert_fk, hfc] at heq
      split_ifs at heq with hcv1 hcv2
      · injection heq with h1
        have hpk1 : f1.primary_key = true := by rw [← h1]; exact hpk target
        refine ⟨fun _ => normalize_pk f1 hpk1,
                fun h2 => absurd h2 (by simp [Field.isDateOrTime, hfc]),
                fun _ => (normalize_pk f1 hpk1).2,
                fun h2 => absurd h2 (by simp [Field.isFK, hfc]),
                fun tgt htgt => ?_⟩
        have he : target = tgt := by
          rw [hfc] at htgt
          injection htgt
        subst he
        constructor
        · intro _
          have hclass : f1.fieldClass = (ctx.targetPk target).fieldClass := by
            rw [← h1]
          rw [normalize_class f1, hclass]
        · intro hpres
          rw [hcv1] at hpres
          exact absurd hpres (by decide)
      · injection heq with h1
        subst h1
        refine ⟨fun h2 => normalize_pk f h2, fun h2 => normalize_dt f h2,
                fun h2 => normalize_unique f h2, fun _ => normalize_class f,
                fun tgt htgt => ?_⟩
        constructor
        · intro hconv
          exact absurd hconv hcv1
        · intro _
          rw [normalize_class f, htgt]
          rfl
    · have hf1 : f1 = f := by
        cases hfc2 : f.fieldClass <;> simp_all [convert_fk, Field.isFK]
      subst hf1
      exact ⟨fun h2 => normalize_pk f1 h2, fun h2 => normalize_dt f1 h2,
             fun h2 => normalize_unique f1 h2, fun _ => normalize_class f1,
             fun tgt htgt => (hfk (by simp [Field.isFK, htgt])).elim⟩

/-- C4 witness: the `AutoField` primary key `id` maps to a non-key,
non-unique, indexed shadow field. -/
theorem C4_witness :
    (normalize_copied_field exId).primary_key = false ∧
    (normalize_copied_field exId).unique = false ∧
    (normalize_copied_field exId).db_index = true :=
  (C4_shadow_field_rules exCtx exCfg exId (normalize_copied_field exId)
    (fun _ => rfl) rfl).1 rfl

end HistoricalRecords
